import Mathlib

/-!
Verification of the codices data-access layer (`kuzu_DAL.py`)

The DAL stores category-theory entities (categories, objects, morphisms,
functors, natural transformations) in a property graph (node tables plus
relationship tables, see `initialize_schema`).  We embed the database state as
a record of row lists and edge lists, and translate each `CategoryDAL` method
from the Cypher-style queries it executes:

* `CREATE` of a node appends a row with a fresh serial id (per node table);
* `MATCH` patterns become joins/filters over the row and edge lists;
* `OPTIONAL MATCH` keeps a row with a `none` binding when the pattern has no
  match, otherwise produces one row per match;
* `DETACH DELETE n` removes the matched nodes and every relationship edge
  incident to them;
* a query that raises makes the operation fail (`Except.error`); the per-method
  `try/except` wrappers are modelled separately (see `*_result` below).

Edges always connect existing nodes in any state reachable through the API;
edge-deletion queries therefore filter on the edge fields alone.
-/

namespace Codices

/-- Row of the Category node table. -/
structure CategoryRow where
  ID : Nat
  name : String
  description : String
deriving DecidableEq, Repr

/-- Row of the Object node table. -/
structure ObjectRow where
  ID : Nat
  name : String
  description : String
deriving DecidableEq, Repr

/-- Row of the Morphism node table. -/
structure MorphismRow where
  ID : Nat
  name : String
  description : String
  is_identity : Bool
deriving DecidableEq, Repr

/-- Row of the Functor node table. -/
structure FunctorRow where
  ID : Nat
  name : String
  description : String
deriving DecidableEq, Repr

/-- Row of the Natural_Transformation node table. -/
structure NTRow where
  ID : Nat
  name : String
  description : String
deriving DecidableEq, Repr

/-- A plain relationship edge (FROM node id, TO node id). -/
structure Edge where
  src : Nat
  tgt : Nat
deriving DecidableEq, Repr

/-- A functor_object_map / functor_morphism_map edge carrying `via_functor_id`. -/
structure MapEdge where
  src : Nat
  tgt : Nat
  via_functor_id : Nat
deriving DecidableEq, Repr

/-- A nat_trans_components edge carrying `at_object_id`. -/
structure CompEdge where
  nt : Nat
  morph : Nat
  at_object_id : Nat
deriving DecidableEq, Repr

/-- The whole database state: one list per node table (ids are per-table
serials) and one list per relationship table. -/
structure DB where
  categories : List CategoryRow
  objects : List ObjectRow
  morphisms : List MorphismRow
  functors : List FunctorRow
  nts : List NTRow
  morphism_source : List Edge
  morphism_target : List Edge
  functor_source : List Edge
  functor_target : List Edge
  category_objects : List Edge
  category_morphisms : List Edge
  functor_object_map : List MapEdge
  functor_morphism_map : List MapEdge
  nat_trans_source : List Edge
  nat_trans_target : List Edge
  nat_trans_components : List CompEdge
  nextCategoryId : Nat
  nextObjectId : Nat
  nextMorphismId : Nat
  nextFunctorId : Nat
  nextNTId : Nat
deriving DecidableEq, Repr

/-- Edge membership test used to translate `MATCH (a)-[:rel]->(b)` with both
endpoints bound. -/
def hasEdge (es : List Edge) (a b : Nat) : Bool :=
  es.any (fun e => e.src == a && e.tgt == b)

def categoryExists (db : DB) (cid : Nat) : Bool :=
  db.categories.any (fun c => c.ID == cid)

def objectExists (db : DB) (oid : Nat) : Bool :=
  db.objects.any (fun o => o.ID == oid)

def morphismExists (db : DB) (mid : Nat) : Bool :=
  db.morphisms.any (fun m => m.ID == mid)

def functorExists (db : DB) (fid : Nat) : Bool :=
  db.functors.any (fun f => f.ID == fid)

def ntExists (db : DB) (nid : Nat) : Bool :=
  db.nts.any (fun nt => nt.ID == nid)

/-- Rows of an `OPTIONAL MATCH`: one `none` row when the pattern has no match,
otherwise one `some` row per match. -/
def optMatch {α : Type} (l : List α) : List (Option α) :=
  match l with
  | [] => [none]
  | l => l.map some

/-- String comparison used to model `ORDER BY <string field>`. -/
def strLe (a b : String) : Bool := !(decide (b < a))

/-- Insertion step of the stable sort modelling `ORDER BY`. -/
def insertLe {α : Type} (le : α → α → Bool) (a : α) : List α → List α
  | [] => [a]
  | b :: bs => if le a b then a :: b :: bs else b :: insertLe le a bs

/-- Stable insertion sort modelling `ORDER BY` (deterministic, kernel
reducible). -/
def sortLe {α : Type} (le : α → α → Bool) : List α → List α
  | [] => []
  | a :: as => insertLe le a (sortLe le as)

/-- `ORDER BY` a string key. -/
def sortByKey {α : Type} (key : α → String) (l : List α) : List α :=
  sortLe (fun a b => strLe (key a) (key b)) l

/-- `DETACH DELETE` of the morphisms whose id satisfies `del`: the rows go,
together with every edge incident to a deleted morphism node. -/
def detachMorphisms (db : DB) (del : Nat → Bool) : DB :=
  { db with
    morphisms := db.morphisms.filter (fun m => !(del m.ID)),
    category_morphisms := db.category_morphisms.filter (fun e => !(del e.tgt)),
    morphism_source := db.morphism_source.filter (fun e => !(del e.src)),
    morphism_target := db.morphism_target.filter (fun e => !(del e.src)),
    functor_morphism_map := db.functor_morphism_map.filter (fun e => !(del e.src) && !(del e.tgt)),
    nat_trans_components := db.nat_trans_components.filter (fun e => !(del e.morph)) }

/-- `DETACH DELETE` of the objects whose id satisfies `del`. -/
def detachObjects (db : DB) (del : Nat → Bool) : DB :=
  { db with
    objects := db.objects.filter (fun o => !(del o.ID)),
    category_objects := db.category_objects.filter (fun e => !(del e.tgt)),
    morphism_source := db.morphism_source.filter (fun e => !(del e.tgt)),
    morphism_target := db.morphism_target.filter (fun e => !(del e.tgt)),
    functor_object_map := db.functor_object_map.filter (fun e => !(del e.src) && !(del e.tgt)) }

/-- `DETACH DELETE` of the categories whose id satisfies `del`. -/
def detachCategories (db : DB) (del : Nat → Bool) : DB :=
  { db with
    categories := db.categories.filter (fun c => !(del c.ID)),
    category_objects := db.category_objects.filter (fun e => !(del e.src)),
    category_morphisms := db.category_morphisms.filter (fun e => !(del e.src)),
    functor_source := db.functor_source.filter (fun e => !(del e.tgt)),
    functor_target := db.functor_target.filter (fun e => !(del e.tgt)) }

/-! ### Category operations -/

/-- `list_categories`: all category rows, `ORDER BY c.name`. -/
def list_categories (db : DB) : List CategoryRow :=
  sortByKey (fun c => c.name) db.categories

/-- Duplicate-name error message of `create_category`. -/
def catDupMsg (name : String) (cid : Nat) : String :=
  "Category \x27" ++ name ++ "\x27 already exists with ID " ++ toString cid

/-- `create_category`: scan `list_categories` for the name and raise on a hit,
otherwise insert a fresh row and return its id. -/
def create_category (db : DB) (name description : String) :
    Except String (Nat × DB) :=
  match (list_categories db).find? (fun c => c.name == name) with
  | some cat => .error (catDupMsg name cat.ID)
  | none =>
    let cid := db.nextCategoryId
    .ok (cid, { db with
      categories := db.categories ++ [⟨cid, name, description⟩],
      nextCategoryId := cid + 1 })

/-- `get_category`: first row with the id, else the not-found sentinel. -/
def get_category (db : DB) (cid : Nat) : Option CategoryRow :=
  db.categories.find? (fun c => c.ID == cid)

/-- `update_category`: optional rename (guarded by a duplicate check against
all other categories) and optional description update. -/
def update_category (db : DB) (cid : Nat) (name? desc? : Option String) :
    Except String (DB × Bool) :=
  match name? with
  | some n =>
    match (list_categories db).find? (fun c => c.name == n && !(c.ID == cid)) with
    | some cat => .error (catDupMsg n cat.ID)
    | none =>
      let db1 := { db with
        categories := db.categories.map (fun c => if c.ID == cid then { c with name := n } else c) }
      match desc? with
      | some d => .ok ({ db1 with
          categories := db1.categories.map (fun c => if c.ID == cid then { c with description := d } else c) }, true)
      | none => .ok (db1, true)
  | none =>
    match desc? with
    | some d => .ok ({ db with
        categories := db.categories.map (fun c => if c.ID == cid then { c with description := d } else c) }, true)
    | none => .ok (db, true)

/-- `delete_category`: detach-delete the category's morphisms, then its
objects, then the category row itself; always reports success. -/
def delete_category (db : DB) (cid : Nat) : DB × Bool :=
  let db1 := detachMorphisms db (fun mid =>
    categoryExists db cid && morphismExists db mid &&
      hasEdge db.category_morphisms cid mid)
  let db2 := detachObjects db1 (fun oid =>
    categoryExists db1 cid && objectExists db1 oid &&
      hasEdge db1.category_objects cid oid)
  let db3 := detachCategories db2 (fun x => categoryExists db2 cid && x == cid)
  (db3, true)

/-! ### Object operations -/

/-- Rows of `MATCH (c:Category)-[:category_objects]->(o:Object) WHERE c.ID = $id`. -/
def objectsInCategory (db : DB) (cid : Nat) : List ObjectRow :=
  if categoryExists db cid then
    db.objects.filter (fun o => hasEdge db.category_objects cid o.ID)
  else []

/-- `get_objects_in_category`: the category's objects, `ORDER BY o.name`. -/
def get_objects_in_category (db : DB) (cid : Nat) : List ObjectRow :=
  sortByKey (fun o => o.name) (objectsInCategory db cid)

/-- Duplicate-name error message of `create_object`. -/
def objDupMsg (name : String) (cid oid : Nat) : String :=
  "Object \x27" ++ name ++ "\x27 already exists in category " ++ toString cid ++
    " with ID " ++ toString oid

/-- `create_object`: duplicate check inside the category, then insert the row
and link it to the category (the link query only fires when both nodes match). -/
def create_object (db : DB) (name : String) (cid : Nat) (description : String) :
    Except String (Nat × DB) :=
  match (get_objects_in_category db cid).find? (fun o => o.name == name) with
  | some o => .error (objDupMsg name cid o.ID)
  | none =>
    let oid := db.nextObjectId
    let db1 := { db with
      objects := db.objects ++ [⟨oid, name, description⟩],
      nextObjectId := oid + 1 }
    let db2 :=
      if categoryExists db1 cid && objectExists db1 oid then
        { db1 with category_objects := db1.category_objects ++ [⟨cid, oid⟩] }
      else db1
    .ok (oid, db2)

/-- `get_object`: first row with the id, else the not-found sentinel. -/
def get_object (db : DB) (oid : Nat) : Option ObjectRow :=
  db.objects.find? (fun o => o.ID == oid)

/-- `update_object`: set the provided fields on every row with the id; no
duplicate-name check is performed. -/
def update_object (db : DB) (oid : Nat) (name? desc? : Option String) : DB × Bool :=
  let db1 :=
    match name? with
    | some n => { db with
        objects := db.objects.map (fun o => if o.ID == oid then { o with name := n } else o) }
    | none => db
  let db2 :=
    match desc? with
    | some d => { db1 with
        objects := db1.objects.map (fun o => if o.ID == oid then { o with description := d } else o) }
    | none => db1
  (db2, true)

/-- `delete_object`: detach-delete every morphism having the object as source
or target, then the object row itself; always reports success. -/
def delete_object (db : DB) (oid : Nat) : DB × Bool :=
  let db1 := detachMorphisms db (fun mid =>
    objectExists db oid && morphismExists db mid &&
      (hasEdge db.morphism_source mid oid || hasEdge db.morphism_target mid oid))
  let db2 := detachObjects db1 (fun x => objectExists db1 oid && x == oid)
  (db2, true)

/-! ### Morphism operations -/

/-- Objects matched by `OPTIONAL MATCH (m)-[:morphism_source]->(s:Object)`. -/
def sourceObjectsOf (db : DB) (mid : Nat) : List ObjectRow :=
  db.objects.filter (fun o => hasEdge db.morphism_source mid o.ID)

/-- Objects matched by `OPTIONAL MATCH (m)-[:morphism_target]->(t:Object)`. -/
def targetObjectsOf (db : DB) (mid : Nat) : List ObjectRow :=
  db.objects.filter (fun o => hasEdge db.morphism_target mid o.ID)

/-- A row of `get_morphisms_in_category`. -/
structure MorphismListing where
  ID : Nat
  name : String
  description : String
  is_identity : Bool
  source_object : Option String
  target_object : Option String
deriving DecidableEq, Repr

/-- Rows of the `get_morphisms_in_category` query before ordering. -/
def morphismRowsInCategory (db : DB) (cid : Nat) : List MorphismListing :=
  if categoryExists db cid then
    (db.morphisms.filter (fun m => hasEdge db.category_morphisms cid m.ID)).flatMap (fun m =>
      (optMatch (sourceObjectsOf db m.ID)).flatMap (fun s? =>
        (optMatch (targetObjectsOf db m.ID)).map (fun t? =>
          ⟨m.ID, m.name, m.description, m.is_identity, s?.map (fun o => o.name),
            t?.map (fun o => o.name)⟩)))
  else []

/-- `get_morphisms_in_category`: the category's morphisms with source/target
object names, `ORDER BY m.name`. -/
def get_morphisms_in_category (db : DB) (cid : Nat) : List MorphismListing :=
  sortByKey (fun m => m.name) (morphismRowsInCategory db cid)

/-- Duplicate-name error message of `create_morphism`. -/
def morphDupMsg (name : String) (cid mid : Nat) : String :=
  "Morphism \x27" ++ name ++ "\x27 already exists in category " ++ toString cid ++
    " with ID " ++ toString mid

/-- `create_morphism`: duplicate check inside the category, then insert the row
(`is_identity` false) and link it to the category and to its source and target
objects (each link query only fires when both nodes match). -/
def create_morphism (db : DB) (name : String) (srcId tgtId cid : Nat)
    (description : String) : Except String (Nat × DB) :=
  match (get_morphisms_in_category db cid).find? (fun m => m.name == name) with
  | some m => .error (morphDupMsg name cid m.ID)
  | none =>
    let mid := db.nextMorphismId
    let db1 := { db with
      morphisms := db.morphisms ++ [⟨mid, name, description, false⟩],
      nextMorphismId := mid + 1 }
    let db2 :=
      if categoryExists db1 cid && morphismExists db1 mid then
        { db1 with category_morphisms := db1.category_morphisms ++ [⟨cid, mid⟩] }
      else db1
    let db3 :=
      if morphismExists db2 mid && objectExists db2 srcId then
        { db2 with morphism_source := db2.morphism_source ++ [⟨mid, srcId⟩] }
      else db2
    let db4 :=
      if morphismExists db3 mid && objectExists db3 tgtId then
        { db3 with morphism_target := db3.morphism_target ++ [⟨mid, tgtId⟩] }
      else db3
    .ok (mid, db4)

/-! ### Functor and natural-transformation operations -/

/-- `create_functor`: insert the row and link it to its source and target
categories (each link query only fires when both nodes match). -/
def create_functor (db : DB) (name : String) (srcCatId tgtCatId : Nat)
    (description : String) : Nat × DB :=
  let fid := db.nextFunctorId
  let db1 := { db with
    functors := db.functors ++ [⟨fid, name, description⟩],
    nextFunctorId := fid + 1 }
  let db2 :=
    if functorExists db1 fid && categoryExists db1 srcCatId then
      { db1 with functor_source := db1.functor_source ++ [⟨fid, srcCatId⟩] }
    else db1
  let db3 :=
    if functorExists db2 fid && categoryExists db2 tgtCatId then
      { db2 with functor_target := db2.functor_target ++ [⟨fid, tgtCatId⟩] }
    else db2
  (fid, db3)

/-- `create_natural_transformation`: insert the row and link it to its source
and target functors (each link query only fires when both nodes match). -/
def create_natural_transformation (db : DB) (name : String)
    (srcFunctorId tgtFunctorId : Nat) (description : String) : Nat × DB :=
  let nid := db.nextNTId
  let db1 := { db with
    nts := db.nts ++ [⟨nid, name, description⟩],
    nextNTId := nid + 1 }
  let db2 :=
    if ntExists db1 nid && functorExists db1 srcFunctorId then
      { db1 with nat_trans_source := db1.nat_trans_source ++ [⟨nid, srcFunctorId⟩] }
    else db1
  let db3 :=
    if ntExists db2 nid && functorExists db2 tgtFunctorId then
      { db2 with nat_trans_target := db2.nat_trans_target ++ [⟨nid, tgtFunctorId⟩] }
    else db2
  (nid, db3)

/-! ### Mapping store -/

/-- `add_functor_object_mapping`: the single typed `CREATE` query.  A row must
bind the functor, the two objects, and (through the optional matches) a source
category containing the source object and a target category containing the
target object; one mapping edge is created per surviving row, and the call
reports success regardless. -/
def objectMappingCreateRows (db : DB) (fid sid tid : Nat) : List Unit :=
  (db.functors.filter (fun f => f.ID == fid)).flatMap (fun f =>
    (optMatch (db.categories.filter (fun sc => hasEdge db.functor_source f.ID sc.ID))).flatMap (fun sc? =>
      (optMatch (db.categories.filter (fun tc => hasEdge db.functor_target f.ID tc.ID))).flatMap (fun tc? =>
        (db.objects.filter (fun s => s.ID == sid)).flatMap (fun s =>
          (db.objects.filter (fun t => t.ID == tid)).flatMap (fun t =>
            if (match sc? with
                | some sc => hasEdge db.category_objects sc.ID s.ID
                | none => false) &&
               (match tc? with
                | some tc => hasEdge db.category_objects tc.ID t.ID
                | none => false)
            then [()] else [])))))

def add_functor_object_mapping (db : DB) (fid sid tid : Nat) : DB × Bool :=
  ({ db with functor_object_map :=
      db.functor_object_map ++
        (objectMappingCreateRows db fid sid tid).map (fun _ => MapEdge.mk sid tid fid) }, true)

/-- `remove_functor_object_mapping`: delete every mapping edge of the functor
leaving the given source object. -/
def remove_functor_object_mapping (db : DB) (fid sid : Nat) : DB × Bool :=
  ({ db with functor_object_map := db.functor_object_map.filter (fun e =>
      !(e.via_functor_id == fid && e.src == sid)) }, true)

/-- A row of `get_functor_object_mappings`. -/
structure ObjectMappingRow where
  source_object_id : Nat
  source_object : String
  target_object_id : Nat
  target_object : String
deriving DecidableEq, Repr

/-- Rows of the `get_functor_object_mappings` query before ordering. -/
def objectMappingRows (db : DB) (fid : Nat) : List ObjectMappingRow :=
  db.functor_object_map.flatMap (fun e =>
    if e.via_functor_id == fid then
      (db.objects.filter (fun s => s.ID == e.src)).flatMap (fun s =>
        (db.objects.filter (fun t => t.ID == e.tgt)).map (fun t =>
          ⟨s.ID, s.name, t.ID, t.name⟩))
    else [])

/-- `get_functor_object_mappings`: the functor's object mappings with names,
`ORDER BY s.name`. -/
def get_functor_object_mappings (db : DB) (fid : Nat) : List ObjectMappingRow :=
  sortByKey (fun r => r.source_object) (objectMappingRows db fid)

/-- `add_functor_morphism_mapping`: same typed `CREATE` shape as the object
version, over morphisms and `category_morphisms` edges. -/
def morphismMappingCreateRows (db : DB) (fid smid tmid : Nat) : List Unit :=
  (db.functors.filter (fun f => f.ID == fid)).flatMap (fun f =>
    (optMatch (db.categories.filter (fun sc => hasEdge db.functor_source f.ID sc.ID))).flatMap (fun sc? =>
      (optMatch (db.categories.filter (fun tc => hasEdge db.functor_target f.ID tc.ID))).flatMap (fun tc? =>
        (db.morphisms.filter (fun sm => sm.ID == smid)).flatMap (fun sm =>
          (db.morphisms.filter (fun tm => tm.ID == tmid)).flatMap (fun tm =>
            if (match sc? with
                | some sc => hasEdge db.category_morphisms sc.ID sm.ID
                | none => false) &&
               (match tc? with
                | some tc => hasEdge db.category_morphisms tc.ID tm.ID
                | none => false)
            then [()] else [])))))

def add_functor_morphism_mapping (db : DB) (fid smid tmid : Nat) : DB × Bool :=
  ({ db with functor_morphism_map :=
      db.functor_morphism_map ++
        (morphismMappingCreateRows db fid smid tmid).map (fun _ => MapEdge.mk smid tmid fid) }, true)

/-- `remove_functor_morphism_mapping`: delete every mapping edge of the functor
leaving the given source morphism. -/
def remove_functor_morphism_mapping (db : DB) (fid smid : Nat) : DB × Bool :=
  ({ db with functor_morphism_map := db.functor_morphism_map.filter (fun e =>
      !(e.via_functor_id == fid && e.src == smid)) }, true)

/-- `add_nt_component`: the single typed `CREATE` query.  A row must bind the
natural transformation, a source functor and its source category containing
the object, and a target functor and its target category containing the
morphism; one component edge is created per surviving row, and the call
reports success regardless. -/
def ntComponentCreateRows (db : DB) (ntid xid mid : Nat) : List Unit :=
  (db.nts.filter (fun nt => nt.ID == ntid)).flatMap (fun nt =>
    (db.functors.filter (fun sf => hasEdge db.nat_trans_source nt.ID sf.ID)).flatMap (fun sf =>
      (db.categories.filter (fun srcCat => hasEdge db.functor_source sf.ID srcCat.ID)).flatMap (fun srcCat =>
        (db.functors.filter (fun tf => hasEdge db.nat_trans_target nt.ID tf.ID)).flatMap (fun tf =>
          (db.categories.filter (fun tgtCat => hasEdge db.functor_target tf.ID tgtCat.ID)).flatMap (fun tgtCat =>
            (db.objects.filter (fun x => x.ID == xid)).flatMap (fun x =>
              (db.morphisms.filter (fun m => m.ID == mid)).flatMap (fun m =>
                if hasEdge db.category_objects srcCat.ID x.ID &&
                   hasEdge db.category_morphisms tgtCat.ID m.ID
                then [()] else [])))))))

def add_nt_component (db : DB) (ntid xid mid : Nat) : DB × Bool :=
  ({ db with nat_trans_components :=
      db.nat_trans_components ++
        (ntComponentCreateRows db ntid xid mid).map (fun _ => CompEdge.mk ntid mid xid) }, true)

/-- `remove_nt_component`: delete every component edge of the natural
transformation tagged with the given object id. -/
def remove_nt_component (db : DB) (ntid xid : Nat) : DB × Bool :=
  ({ db with nat_trans_components := db.nat_trans_components.filter (fun e =>
      !(e.nt == ntid && e.at_object_id == xid)) }, true)

/-- A row of `get_nt_components`. -/
structure NTComponentRow where
  at_object_id : Option Nat
  morphism_id : Nat
  morphism_name : String
  source_object_id : Option Nat
  source_object : Option String
  target_object_id : Option Nat
  target_object : Option String
deriving DecidableEq, Repr

/-- Rows of the `get_nt_components` query before ordering.  The query's
trailing `WHERE nt.ID = $nt_id` attaches to the directly preceding
`OPTIONAL MATCH (m)-[:morphism_target]->(t:Object)` (openCypher scoping), not
to the main `MATCH`: the main pattern therefore yields one row per component
edge of every natural transformation, and only the target-object binding is
nulled when the row's transformation is not the requested one. -/
def ntComponentRows (db : DB) (ntid : Nat) : List NTComponentRow :=
  db.nat_trans_components.flatMap (fun e =>
    (db.nts.filter (fun nt => nt.ID == e.nt)).flatMap (fun nt =>
      (db.morphisms.filter (fun m => m.ID == e.morph)).flatMap (fun m =>
        (optMatch (sourceObjectsOf db m.ID)).flatMap (fun s? =>
          (optMatch (if nt.ID == ntid then targetObjectsOf db m.ID else [])).map (fun t? =>
            ⟨some e.at_object_id, m.ID, m.name, s?.map (fun o => o.ID),
              s?.map (fun o => o.name), t?.map (fun o => o.ID),
              t?.map (fun o => o.name)⟩)))))

/-- `get_nt_components`: the components with display labels,
`ORDER BY r.at_object_id`. -/
def get_nt_components (db : DB) (ntid : Nat) : List NTComponentRow :=
  sortLe (fun a b => decide (a.at_object_id.getD 0 ≤ b.at_object_id.getD 0))
    (ntComponentRows db ntid)

/-! ### Validators -/

/-- Rows of the first `validate_nt_structure` query.  The trailing
`WHERE nt.ID = $nt_id` attaches to the second `OPTIONAL MATCH` (openCypher
scoping), not to `MATCH (nt)`: the query yields one row per natural
transformation in the store, with only the target-functor chain nulled for
the transformations that are not the requested one, and the method reads the
first row. -/
def ntStructureLinkRows (db : DB) (ntid : Nat) :
    List (Option CategoryRow × Option CategoryRow) :=
  db.nts.flatMap (fun nt =>
    (optMatch ((db.functors.filter (fun sf => hasEdge db.nat_trans_source nt.ID sf.ID)).flatMap (fun sf =>
        db.categories.filter (fun srcCat => hasEdge db.functor_source sf.ID srcCat.ID)))).flatMap (fun sc? =>
      (optMatch (if nt.ID == ntid then
          (db.functors.filter (fun tf => hasEdge db.nat_trans_target nt.ID tf.ID)).flatMap (fun tf =>
            db.categories.filter (fun tgtCat => hasEdge db.functor_target tf.ID tgtCat.ID))
        else [])).map (fun tc? =>
        (sc?, tc?))))

/-- Per-component check of `validate_nt_structure`, translated from the second
query.  Its `WHERE nt.ID = $nt_id` directly follows the main `MATCH` and does
filter the components, and the two optional category matches only null-extend
rows; but the returned flags are `r.at_object_id IS NULL` and `m.ID IS NULL`,
evaluated on bindings the main `MATCH` always provides (every component edge
carries `at_object_id` and `m` is a matched node), so both flags are false on
every row and the method emits no per-component message.  The category-id
parameters only feed the optional matches and cannot influence the output. -/
def ntStructureComponentMsgs (db : DB) (ntid srcCatId tgtCatId : Nat) : List String :=
  (db.nat_trans_components.filter (fun e =>
      e.nt == ntid && db.nts.any (fun nt => nt.ID == e.nt))).flatMap (fun e =>
    (db.morphisms.filter (fun m => m.ID == e.morph)).flatMap (fun m =>
      let badX := (some e.at_object_id).isNone
      let badM := (some m.ID).isNone
      (if badX then
        ["Component at object ID " ++ toString e.at_object_id ++ " is not in the source category"]
       else []) ++
      (if badM then
        ["Component morphism for object ID " ++ toString e.at_object_id ++ " is not in the target category"]
       else [])))

/-- `validate_nt_structure`: resolve the linked categories (single error when a
link is missing), then report each ill-typed component. -/
def validate_nt_structure (db : DB) (ntid : Nat) : List String :=
  match (ntStructureLinkRows db ntid).head? with
  | none => ["Natural transformation not found"]
  | some (sc?, tc?) =>
    match sc?, tc? with
    | some srcCat, some tgtCat => ntStructureComponentMsgs db ntid srcCat.ID tgtCat.ID
    | _, _ => ["Natural transformation must be linked to source and target functors with categories"]

/-- Rows of the first `validate_naturality` query: optionally the source
functor F with its source category C, optionally F's target category D1, and
optionally the target functor G with its target category D2.  The trailing
`WHERE nt.ID = $nt_id` attaches to the last `OPTIONAL MATCH` (openCypher
scoping), not to `MATCH (nt)`: the query yields one row per natural
transformation in the store, with only the G/D2 chain nulled for the
transformations that are not the requested one, and the method reads the
first row — "not found" therefore occurs only when the store holds no
natural transformation at all. -/
def naturalityLinkRows (db : DB) (ntid : Nat) :
    List (Option (FunctorRow × CategoryRow) × Option CategoryRow × Option (FunctorRow × CategoryRow)) :=
  db.nts.flatMap (fun nt =>
    (optMatch ((db.functors.filter (fun F => hasEdge db.nat_trans_source nt.ID F.ID)).flatMap (fun F =>
        (db.categories.filter (fun C => hasEdge db.functor_source F.ID C.ID)).map (fun C => (F, C))))).flatMap (fun FC? =>
      (optMatch (match FC? with
        | some FC => db.categories.filter (fun D1 => hasEdge db.functor_target FC.1.ID D1.ID)
        | none => [])).flatMap (fun D1? =>
        (optMatch (if nt.ID == ntid then
            (db.functors.filter (fun G => hasEdge db.nat_trans_target nt.ID G.ID)).flatMap (fun G =>
              (db.categories.filter (fun D2 => hasEdge db.functor_target G.ID D2.ID)).map (fun D2 => (G, D2)))
          else [])).map (fun GD? =>
          (FC?, D1?, GD?)))))

/-- Dictionary of α components keyed by `at_object_id`, as built by the
comprehension in `validate_naturality` (a later entry overwrites an earlier
one, hence the reverse lookup). -/
def lookupAlpha (comps : List NTComponentRow) (x : Nat) : Option NTComponentRow :=
  ((comps.filter (fun c => c.at_object_id.isSome)).reverse).find?
    (fun c => c.at_object_id == some x)

/-- Rows of the morphisms-of-C query in `validate_naturality`: each morphism of
the category with its optional source and target objects. -/
def naturalityMorphRows (db : DB) (cid : Nat) :
    List (Nat × String × Option ObjectRow × Option ObjectRow) :=
  (if categoryExists db cid then
    db.morphisms.filter (fun f => hasEdge db.category_morphisms cid f.ID)
   else []).flatMap (fun f =>
    (optMatch (sourceObjectsOf db f.ID)).flatMap (fun x? =>
      (optMatch (targetObjectsOf db f.ID)).map (fun y? => (f.ID, f.name, x?, y?))))

/-- Rows of the F(f)/G(f) lookup query in `validate_naturality`: the mapped
morphism with its optional source/target object names. -/
def mappedMorphRows (db : DB) (fid smid : Nat) :
    List (Nat × String × Option String × Option String) :=
  db.functor_morphism_map.flatMap (fun e =>
    if e.via_functor_id == fid && e.src == smid then
      (db.morphisms.filter (fun sm => sm.ID == smid)).flatMap (fun _ =>
        (db.morphisms.filter (fun tm => tm.ID == e.tgt)).flatMap (fun tm =>
          (optMatch (sourceObjectsOf db tm.ID)).flatMap (fun s? =>
            (optMatch (targetObjectsOf db tm.ID)).map (fun t? =>
              (tm.ID, tm.name, s?.map (fun o => o.name), t?.map (fun o => o.name))))))
    else [])

/-- Skip message of `validate_naturality` when a component is absent. -/
def skipAlphaMsg (fname : String) : String :=
  "Skipping f=" ++ fname ++ ": missing α_X or α_Y"

/-- Skip message of `validate_naturality` when a morphism mapping is absent. -/
def missingMappingMsg (fname : String) : String :=
  "Skipping f=" ++ fname ++ ": missing F(f) or G(f) mapping"

/-- Verdict message of `validate_naturality` for one naturality square. -/
def squareMsg (fname : String) (ok : Bool) : String :=
  if ok then "Square for f=" ++ fname ++ " is well-typed (cannot prove equality)"
  else "Square for f=" ++ fname ++ " not well-typed: check component/mapping sources/targets"

/-- The `validate_naturality` loop body for one morphism row: `none` when the
morphism lacks a source or target object (`continue` without a message),
otherwise exactly one message. -/
def naturalityRowMsg (db : DB) (Fid Gid : Nat) (comps : List NTComponentRow)
    (row : Nat × String × Option ObjectRow × Option ObjectRow) : Option String :=
  match row with
  | (fId, fName, x?, y?) =>
    match x?, y? with
    | some x, some y =>
      match lookupAlpha comps x.ID, lookupAlpha comps y.ID with
      | some aX, some aY =>
        match (mappedMorphRows db Fid fId).head?, (mappedMorphRows db Gid fId).head? with
        | some Ff, some Gf =>
          some (squareMsg fName
            ((Gf.2.2.1 == aX.target_object) && (Gf.2.2.2 == aY.target_object) &&
             (aY.source_object == Ff.2.2.2) && (aX.source_object == Ff.2.2.1)))
        | _, _ => some (missingMappingMsg fName)
      | _, _ => some (skipAlphaMsg fName)
    | _, _ => none

/-- `validate_naturality`: resolve F, G, C and the shared codomain (with the
three early-return messages), then collect the per-morphism messages, falling
back to a single message when none was produced. -/
def validate_naturality (db : DB) (ntid : Nat) : List String :=
  match (naturalityLinkRows db ntid).head? with
  | none => ["Natural transformation not found"]
  | some (FC?, D1?, GD?) =>
    match FC?, D1?, GD? with
    | some FC, some D1, some GD =>
      if D1.ID != GD.2.ID then ["Functor codomains differ; naturality undefined"]
      else
        let msgs := (naturalityMorphRows db FC.2.ID).filterMap
          (naturalityRowMsg db FC.1.ID GD.1.ID (get_nt_components db ntid))
        if msgs.isEmpty then ["No morphisms found to check"] else msgs
    | _, _, _ => ["Missing linked functors or categories; cannot check naturality"]

/-! ### Exception handling

Every `CategoryDAL` method wraps its body in `try/except`.  We model the body
outcome as `Except String α` (an `error` is a backing-store failure raised by
a query) and each method's `except` clause as a function of that outcome. -/

/-- The `except` clause of `create_category` (and of every other CRUD and
mapping method): log and `raise`, so the error reaches the caller unchanged. -/
def create_category_result (outcome : Except String Nat) : Except String Nat :=
  match outcome with
  | .ok v => .ok v
  | .error e => .error e

/-- The `except` clause of `validate_nt_structure`: the error is caught and
returned as the normal value `["Validation failed: e"]`. -/
def validate_nt_structure_result (outcome : Except String (List String)) : List String :=
  match outcome with
  | .ok msgs => msgs
  | .error e => ["Validation failed: " ++ e]

/-- The `except` clause of `validate_naturality`: the error is caught and
returned as the normal value `["Validation failed: e"]`. -/
def validate_naturality_result (outcome : Except String (List String)) : List String :=
  match outcome with
  | .ok msgs => msgs
  | .error e => ["Validation failed: " ++ e]

/-! ### Concrete populated databases

The naturality scenario of the test suite: category C = {X, Y} with
f : X → Y; category D with objects FX, FY, GX, GY, images Ff : FX → FY and
Gf : GX → GY, and components aX : FX → GX, aY : FY → GY; functors
F, G, H : C → D.  `demoDB` holds the single transformation alpha : F ⇒ G,
fully specified; `skipDB` replaces it by beta : F ⇒ G with no components;
`missDB` replaces it by gamma : H ⇒ G, whose components exist but whose
source functor H maps no morphisms.  Each store holds a single natural
transformation because the link and component queries read rows of every
transformation in the store (see `naturalityLinkRows`, `ntComponentRows`). -/
def demoDB : DB where
  categories := [⟨0, "C", "dom"⟩, ⟨1, "D", "cod"⟩]
  objects := [⟨0, "X", ""⟩, ⟨1, "Y", ""⟩, ⟨2, "FX", ""⟩, ⟨3, "FY", ""⟩,
    ⟨4, "GX", ""⟩, ⟨5, "GY", ""⟩]
  morphisms := [⟨0, "f", "", false⟩, ⟨1, "Ff", "", false⟩, ⟨2, "Gf", "", false⟩,
    ⟨3, "aX", "", false⟩, ⟨4, "aY", "", false⟩]
  functors := [⟨0, "F", ""⟩, ⟨1, "G", ""⟩, ⟨2, "H", ""⟩]
  nts := [⟨0, "alpha", ""⟩]
  morphism_source := [⟨0, 0⟩, ⟨1, 2⟩, ⟨2, 4⟩, ⟨3, 2⟩, ⟨4, 3⟩]
  morphism_target := [⟨0, 1⟩, ⟨1, 3⟩, ⟨2, 5⟩, ⟨3, 4⟩, ⟨4, 5⟩]
  functor_source := [⟨0, 0⟩, ⟨1, 0⟩, ⟨2, 0⟩]
  functor_target := [⟨0, 1⟩, ⟨1, 1⟩, ⟨2, 1⟩]
  category_objects := [⟨0, 0⟩, ⟨0, 1⟩, ⟨1, 2⟩, ⟨1, 3⟩, ⟨1, 4⟩, ⟨1, 5⟩]
  category_morphisms := [⟨0, 0⟩, ⟨1, 1⟩, ⟨1, 2⟩, ⟨1, 3⟩, ⟨1, 4⟩]
  functor_object_map := [⟨0, 2, 0⟩, ⟨1, 3, 0⟩, ⟨0, 4, 1⟩, ⟨1, 5, 1⟩]
  functor_morphism_map := [⟨0, 1, 0⟩, ⟨0, 2, 1⟩]
  nat_trans_source := [⟨0, 0⟩]
  nat_trans_target := [⟨0, 1⟩]
  nat_trans_components := [⟨0, 3, 0⟩, ⟨0, 4, 1⟩]
  nextCategoryId := 2
  nextObjectId := 6
  nextMorphismId := 5
  nextFunctorId := 3
  nextNTId := 1

/-- Same store with beta : F ⇒ G (no components) as the only transformation. -/
def skipDB : DB :=
  { demoDB with
    nts := [⟨0, "beta", ""⟩],
    nat_trans_components := [] }

/-- Same store with gamma : H ⇒ G (components present, but H maps no
morphisms) as the only transformation. -/
def missDB : DB :=
  { demoDB with
    nts := [⟨0, "gamma", ""⟩],
    nat_trans_source := [⟨0, 2⟩] }

/-! ### Helper lemmas -/

theorem mem_insertLe {α : Type} (le : α → α → Bool) (a x : α) (l : List α) :
    x ∈ insertLe le a l ↔ x = a ∨ x ∈ l := by
  induction l with
  | nil => simp [insertLe]
  | cons b bs ih =>
    unfold insertLe
    split
    · simp
    · simp only [List.mem_cons, ih]
      tauto

theorem mem_sortLe {α : Type} (le : α → α → Bool) (x : α) (l : List α) :
    x ∈ sortLe le l ↔ x ∈ l := by
  induction l with
  | nil => simp [sortLe]
  | cons a as ih =>
    unfold sortLe
    rw [mem_insertLe]
    simp only [List.mem_cons, ih]

theorem mem_sortByKey {α : Type} (key : α → String) (l : List α) (a : α) :
    a ∈ sortByKey key l ↔ a ∈ l := by
  unfold sortByKey
  exact mem_sortLe _ _ _

theorem optMatch_ne_nil {α : Type} (l : List α) : optMatch l ≠ [] := by
  cases l <;> simp [optMatch]

theorem exists_mem_optMatch {α : Type} (l : List α) : ∃ x, x ∈ optMatch l := by
  cases h : optMatch l with
  | nil => exact absurd h (optMatch_ne_nil l)
  | cons x xs => exact ⟨x, h ▸ List.mem_cons_self x xs⟩

theorem mem_of_some_mem_optMatch {α : Type} {l : List α} {a : α}
    (h : some a ∈ optMatch l) : a ∈ l := by
  cases l with
  | nil => simp [optMatch] at h
  | cons x xs =>
    simp only [optMatch, List.mem_map] at h
    obtain ⟨b, hb, hba⟩ := h
    cases hba
    exact hb

theorem some_mem_optMatch_of_mem {α : Type} {l : List α} {a : α}
    (h : a ∈ l) : some a ∈ optMatch l := by
  cases l with
  | nil => cases h
  | cons x xs => exact List.mem_map_of_mem some h

theorem filter_flatMap_eq {α β : Type} (l : List α) (p : α → Bool) (f : α → List β)
    (h : ∀ a ∈ l, p a = false → f a = []) :
    (l.filter p).flatMap f = l.flatMap f := by
  induction l with
  | nil => rfl
  | cons x xs ih =>
    have ih' := ih (fun a ha hpa => h a (List.mem_cons_of_mem _ ha) hpa)
    cases hx : p x with
    | true => simp [List.filter_cons, hx, ih']
    | false =>
      have hfx : f x = [] := h x (List.mem_cons_self ..) hx
      simp [List.filter_cons, hx, hfx, ih']

theorem any_filter_eq {α : Type} (l : List α) (p q : α → Bool)
    (h : ∀ a ∈ l, q a = true → p a = true) :
    (l.filter p).any q = l.any q := by
  rw [List.any_filter]
  rw [Bool.eq_iff_iff]
  simp only [List.any_eq_true, Bool.and_eq_true]
  constructor
  · rintro ⟨a, ha, _, hq⟩
    exact ⟨a, ha, hq⟩
  · rintro ⟨a, ha, hq⟩
    exact ⟨a, ha, h a ha hq, hq⟩

theorem any_filter_false {α : Type} (l : List α) (p q : α → Bool)
    (h : l.any q = false) : (l.filter p).any q = false := by
  rw [List.any_filter]
  rw [Bool.eq_false_iff]
  intro hc
  rw [List.any_eq_true] at hc
  obtain ⟨a, ha, hpa⟩ := hc
  rw [Bool.and_eq_true] at hpa
  rw [Bool.eq_false_iff] at h
  exact h (List.any_eq_true.mpr ⟨a, ha, hpa.2⟩)

theorem filter_filter_eq {α : Type} (l : List α) (p q : α → Bool)
    (h : ∀ a ∈ l, q a = false → p a = false) :
    (l.filter q).filter p = l.filter p := by
  induction l with
  | nil => rfl
  | cons x xs ih =>
    have ih' := ih (fun a ha h' => h a (List.mem_cons_of_mem _ ha) h')
    cases hq : q x with
    | true => simp [List.filter_cons, hq, ih']
    | false =>
      have hp : p x = false := h x (List.mem_cons_self ..) hq
      simp [List.filter_cons, hq, hp, ih']

theorem hasEdge_filter_eq (es : List Edge) (p : Edge → Bool) (a b : Nat)
    (h : ∀ e ∈ es, e.src = a → e.tgt = b → p e = true) :
    hasEdge (es.filter p) a b = hasEdge es a b := by
  unfold hasEdge
  apply any_filter_eq
  intro e he hq
  rw [Bool.and_eq_true, beq_iff_eq, beq_iff_eq] at hq
  exact h e he hq.1 hq.2

theorem hasEdge_filter_false (es : List Edge) (p : Edge → Bool) (a b : Nat)
    (h : hasEdge es a b = false) : hasEdge (es.filter p) a b = false := by
  unfold hasEdge at h ⊢
  exact any_filter_false es p _ h

theorem hasEdge_append_single (es : List Edge) (e : Edge) (a b : Nat) :
    hasEdge (es ++ [e]) a b = (hasEdge es a b || (e.src == a && e.tgt == b)) := by
  simp [hasEdge]

theorem exists_of_hasEdge {es : List Edge} {a b : Nat} (h : hasEdge es a b = true) :
    ∃ e ∈ es, e.src = a ∧ e.tgt = b := by
  unfold hasEdge at h
  rw [List.any_eq_true] at h
  obtain ⟨e, he, hp⟩ := h
  rw [Bool.and_eq_true, beq_iff_eq, beq_iff_eq] at hp
  exact ⟨e, he, hp⟩

theorem create_object_state {db : DB} {nm d : String} {cid oid : Nat} {db' : DB}
    (hf : (get_objects_in_category db cid).find? (fun o => o.name == nm) = none)
    (h : create_object db nm cid d = .ok (oid, db')) :
    oid = db.nextObjectId ∧
    db'.objects = db.objects ++ [⟨db.nextObjectId, nm, d⟩] ∧
    db'.categories = db.categories ∧
    db'.nextObjectId = db.nextObjectId + 1 ∧
    (db'.category_objects = db.category_objects ∨
      db'.category_objects = db.category_objects ++ [⟨cid, db.nextObjectId⟩]) := by
  unfold create_object at h
  simp only [hf] at h
  split at h
  · rw [Except.ok.injEq, Prod.mk.injEq] at h
    obtain ⟨h1, h2⟩ := h
    subst h1
    subst h2
    exact ⟨rfl, rfl, rfl, rfl, Or.inr rfl⟩
  · rw [Except.ok.injEq, Prod.mk.injEq] at h
    obtain ⟨h1, h2⟩ := h
    subst h1
    subst h2
    exact ⟨rfl, rfl, rfl, rfl, Or.inl rfl⟩

theorem create_morphism_state {db : DB} {nm d : String} {srcId tgtId cid mid : Nat} {db' : DB}
    (hf : (get_morphisms_in_category db cid).find? (fun m => m.name == nm) = none)
    (h : create_morphism db nm srcId tgtId cid d = .ok (mid, db')) :
    mid = db.nextMorphismId ∧
    db'.morphisms = db.morphisms ++ [⟨db.nextMorphismId, nm, d, false⟩] ∧
    db'.categories = db.categories ∧
    (db'.category_morphisms = db.category_morphisms ∨
      db'.category_morphisms = db.category_morphisms ++ [⟨cid, db.nextMorphismId⟩]) := by
  unfold create_morphism at h
  simp only [hf] at h
  split at h <;> split at h <;> split at h <;>
    (rw [Except.ok.injEq, Prod.mk.injEq] at h
     obtain ⟨h1, h2⟩ := h
     subst h1
     subst h2) <;>
    first
      | exact ⟨rfl, rfl, rfl, Or.inl rfl⟩
      | exact ⟨rfl, rfl, rfl, Or.inr rfl⟩

theorem mem_ne_nil {α : Type} {l : List α} {a : α} (h : a ∈ l) : l ≠ [] := by
  intro hl
  rw [hl] at h
  cases h

theorem isEmpty_false_of_mem {α : Type} {l : List α} {a : α} (h : a ∈ l) :
    l.isEmpty = false := by
  cases l with
  | nil => cases h
  | cons x xs => rfl

theorem naturality_msg_mem (db : DB) (ntid : Nat) (F : FunctorRow) (C : CategoryRow)
    (D1 : CategoryRow) (G : FunctorRow) (D2 : CategoryRow)
    (hlinks : (naturalityLinkRows db ntid).head? = some (some (F, C), some D1, some (G, D2)))
    (hDD : D1.ID = D2.ID)
    {row : Nat × String × Option ObjectRow × Option ObjectRow}
    (hrow : row ∈ naturalityMorphRows db C.ID)
    {msg : String}
    (hbody : naturalityRowMsg db F.ID G.ID (get_nt_components db ntid) row = some msg) :
    msg ∈ validate_naturality db ntid := by
  unfold validate_naturality
  rw [hlinks]
  show msg ∈
    (if D1.ID != D2.ID then ["Functor codomains differ; naturality undefined"]
     else
       if ((naturalityMorphRows db C.ID).filterMap
            (naturalityRowMsg db F.ID G.ID (get_nt_components db ntid))).isEmpty then
         ["No morphisms found to check"]
       else (naturalityMorphRows db C.ID).filterMap
            (naturalityRowMsg db F.ID G.ID (get_nt_components db ntid)))
  rw [if_neg (by simp [hDD])]
  have hmem : msg ∈ (naturalityMorphRows db C.ID).filterMap
      (naturalityRowMsg db F.ID G.ID (get_nt_components db ntid)) :=
    List.mem_filterMap.mpr ⟨row, hrow, hbody⟩
  rw [if_neg (by simp [isEmpty_false_of_mem hmem])]
  exact hmem

/-! ### Claim theorems -/

/-- C10: `validate_naturality` never returns an empty list — whatever the
state and id, the result carries at least one message (a not-found or
missing-link message, per-morphism messages, or the "No morphisms found to
check" fallback). -/
theorem C10_validate_naturality_never_empty (db : DB) (ntid : Nat) :
    validate_naturality db ntid ≠ [] := by
  unfold validate_naturality
  cases h : (naturalityLinkRows db ntid).head? with
  | none => simp
  | some row =>
    obtain ⟨FC?, D1?, GD?⟩ := row
    rcases FC? with _ | FC <;> rcases D1? with _ | D1 <;> rcases GD? with _ | GD <;>
      simp only []
    case some.some.some =>
      split
      · simp
      · split
        · simp
        · next hne => simpa [List.isEmpty_iff] using hne
    all_goals simp

/-- C7 counterexample: the claim says no operation converts a backing-store
failure into a normal return value, but the `except` clause of
`validate_naturality` (and of `validate_nt_structure`) catches the failure and
returns a plain message list — a normal value, not an error. -/
theorem C7_counterexample_validator_swallows_failure :
    validate_naturality_result (Except.error "connection lost") =
      ["Validation failed: connection lost"] ∧
    validate_nt_structure_result (Except.error "connection lost") =
      ["Validation failed: connection lost"] := ⟨rfl, rfl⟩

/-- C7 amended: a backing-store failure propagates unchanged from the CRUD and
mapping operations (modelled by `create_category_result`), while the two
validators `validate_nt_structure` and `validate_naturality` catch it and
return the single-message list "Validation failed: ..." as a normal result. -/
theorem C7_amended_error_propagation (e : String) :
    create_category_result (Except.error e) = Except.error e ∧
    validate_nt_structure_result (Except.error e) = ["Validation failed: " ++ e] ∧
    validate_naturality_result (Except.error e) = ["Validation failed: " ++ e] :=
  ⟨rfl, rfl, rfl⟩

/-- C9: `update_object` performs no duplicate-name check — renaming one object
of a category to the name of another object of the same category reports
success and leaves two distinct same-named objects in that category. -/
theorem C9_update_object_no_uniqueness_check (db : DB) (cid : Nat)
    (o1 o2 : ObjectRow)
    (h1 : o1 ∈ db.objects) (h2 : o2 ∈ db.objects) (hne : o1.ID ≠ o2.ID)
    (he1 : hasEdge db.category_objects cid o1.ID = true)
    (he2 : hasEdge db.category_objects cid o2.ID = true)
    (hcat : categoryExists db cid = true) :
    (update_object db o2.ID (some o1.name) none).2 = true ∧
    o1 ∈ objectsInCategory (update_object db o2.ID (some o1.name) none).1 cid ∧
    { o2 with name := o1.name } ∈
      objectsInCategory (update_object db o2.ID (some o1.name) none).1 cid := by
  have hobj : (update_object db o2.ID (some o1.name) none).1.objects =
      db.objects.map (fun o => if o.ID == o2.ID then { o with name := o1.name } else o) := rfl
  have hco : (update_object db o2.ID (some o1.name) none).1.category_objects =
      db.category_objects := rfl
  have hex : categoryExists (update_object db o2.ID (some o1.name) none).1 cid = true := hcat
  refine ⟨rfl, ?_, ?_⟩
  · unfold objectsInCategory
    rw [if_pos hex, hobj, hco]
    apply List.mem_filter.mpr
    refine ⟨List.mem_map.mpr ⟨o1, h1, ?_⟩, he1⟩
    rw [if_neg]
    simp [hne]
  · unfold objectsInCategory
    rw [if_pos hex, hobj, hco]
    apply List.mem_filter.mpr
    refine ⟨List.mem_map.mpr ⟨o2, h2, ?_⟩, he2⟩
    simp

/-- C9 witness: in the demo database, renaming Y (id 1) to "X" succeeds and
category C then holds two objects named "X". -/
theorem C9_update_object_no_uniqueness_check_witness :
    (⟨0, "X", ""⟩ : ObjectRow) ∈ demoDB.objects ∧
    (⟨1, "Y", ""⟩ : ObjectRow) ∈ demoDB.objects ∧
    (update_object demoDB 1 (some "X") none).2 = true ∧
    (⟨0, "X", ""⟩ : ObjectRow) ∈
      objectsInCategory (update_object demoDB 1 (some "X") none).1 0 ∧
    (⟨1, "X", ""⟩ : ObjectRow) ∈
      objectsInCategory (update_object demoDB 1 (some "X") none).1 0 := by
  have h := C9_update_object_no_uniqueness_check demoDB 0 ⟨0, "X", ""⟩ ⟨1, "Y", ""⟩
    (by decide) (by decide) (by decide) (by decide) (by decide) (by decide)
  exact ⟨by decide, by decide, h.1, h.2.1, h.2.2⟩

/-- C8: deleting an id that names no existing category (respectively object)
is a no-op success — the call returns success, the state is unchanged, and a
second identical call succeeds the same way. -/
theorem C8_delete_nonexistent_is_noop (db : DB) (cid oid : Nat)
    (hc : categoryExists db cid = false) (ho : objectExists db oid = false) :
    delete_category db cid = (db, true) ∧
    delete_category (delete_category db cid).1 cid = (db, true) ∧
    delete_object db oid = (db, true) ∧
    delete_object (delete_object db oid).1 oid = (db, true) := by
  have h1 : delete_category db cid = (db, true) := by
    unfold delete_category detachMorphisms detachObjects detachCategories
    simp [hc]
  have h2 : delete_object db oid = (db, true) := by
    unfold delete_object detachMorphisms detachObjects
    simp [ho]
  refine ⟨h1, ?_, h2, ?_⟩
  · rw [h1]
    exact h1
  · rw [h2]
    exact h2

/-- C8 witness: id 77 names nothing in the demo database; both deletes are
no-op successes twice in a row. -/
theorem C8_delete_nonexistent_is_noop_witness :
    categoryExists demoDB 77 = false ∧ objectExists demoDB 77 = false ∧
    delete_category demoDB 77 = (demoDB, true) ∧
    delete_category (delete_category demoDB 77).1 77 = (demoDB, true) ∧
    delete_object demoDB 77 = (demoDB, true) ∧
    delete_object (delete_object demoDB 77).1 77 = (demoDB, true) := by
  have h := C8_delete_nonexistent_is_noop demoDB 77 77 (by decide) (by decide)
  exact ⟨by decide, by decide, h.1, h.2.1, h.2.2.1, h.2.2.2⟩

/-- C2: when the typed pattern of `add_functor_object_mapping` cannot match —
the source object is in no source category of the functor, or the target
object is in no target category — the call writes no mapping row yet still
reports success, and the mapping listing is unchanged; `add_nt_component`
behaves the same way when its typed chain fails. -/
theorem C2_mapping_typing_failure_silent_noop (db : DB) (fid sid tid nid xid mid : Nat)
    (hA : (∀ sc ∈ db.categories, hasEdge db.functor_source fid sc.ID = true →
             hasEdge db.category_objects sc.ID sid = false) ∨
          (∀ tc ∈ db.categories, hasEdge db.functor_target fid tc.ID = true →
             hasEdge db.category_objects tc.ID tid = false))
    (hB : (∀ sf ∈ db.functors, hasEdge db.nat_trans_source nid sf.ID = true →
             ∀ sc ∈ db.categories, hasEdge db.functor_source sf.ID sc.ID = true →
               hasEdge db.category_objects sc.ID xid = false) ∨
          (∀ tf ∈ db.functors, hasEdge db.nat_trans_target nid tf.ID = true →
             ∀ tc ∈ db.categories, hasEdge db.functor_target tf.ID tc.ID = true →
               hasEdge db.category_morphisms tc.ID mid = false)) :
    add_functor_object_mapping db fid sid tid = (db, true) ∧
    get_functor_object_mappings (add_functor_object_mapping db fid sid tid).1 fid =
      get_functor_object_mappings db fid ∧
    add_nt_component db nid xid mid = (db, true) := by
  have hrowsA : objectMappingCreateRows db fid sid tid = [] := by
    unfold objectMappingCreateRows
    rw [List.flatMap_eq_nil_iff]
    intro f hf
    rw [List.mem_filter] at hf
    have hfid : f.ID = fid := by simpa using hf.2
    rw [List.flatMap_eq_nil_iff]
    intro sc? hsc
    rw [List.flatMap_eq_nil_iff]
    intro tc? htc
    rw [List.flatMap_eq_nil_iff]
    intro s hs
    rw [List.flatMap_eq_nil_iff]
    intro t ht
    rw [List.mem_filter] at hs ht
    have hsid : s.ID = sid := by simpa using hs.2
    have htid : t.ID = tid := by simpa using ht.2
    cases hA with
    | inl h =>
      cases sc? with
      | none => simp
      | some sc =>
        have hscmem := mem_of_some_mem_optMatch hsc
        rw [List.mem_filter] at hscmem
        have hfalse : hasEdge db.category_objects sc.ID s.ID = false := by
          rw [hsid]
          exact h sc hscmem.1 (hfid ▸ hscmem.2)
        simp [hfalse]
    | inr h =>
      cases tc? with
      | none => simp
      | some tc =>
        have htcmem := mem_of_some_mem_optMatch htc
        rw [List.mem_filter] at htcmem
        have hfalse : hasEdge db.category_objects tc.ID t.ID = false := by
          rw [htid]
          exact h tc htcmem.1 (hfid ▸ htcmem.2)
        simp [hfalse]
  have hrowsB : ntComponentCreateRows db nid xid mid = [] := by
    unfold ntComponentCreateRows
    rw [List.flatMap_eq_nil_iff]
    intro nt hnt
    rw [List.mem_filter] at hnt
    have hnid : nt.ID = nid := by simpa using hnt.2
    rw [List.flatMap_eq_nil_iff]
    intro sf hsf
    rw [List.mem_filter] at hsf
    rw [List.flatMap_eq_nil_iff]
    intro srcCat hsrcCat
    rw [List.mem_filter] at hsrcCat
    rw [List.flatMap_eq_nil_iff]
    intro tf htf
    rw [List.mem_filter] at htf
    rw [List.flatMap_eq_nil_iff]
    intro tgtCat htgtCat
    rw [List.mem_filter] at htgtCat
    rw [List.flatMap_eq_nil_iff]
    intro x hx
    rw [List.mem_filter] at hx
    have hxid : x.ID = xid := by simpa using hx.2
    rw [List.flatMap_eq_nil_iff]
    intro m hm
    rw [List.mem_filter] at hm
    have hmid : m.ID = mid := by simpa using hm.2
    cases hB with
    | inl h =>
      have hfalse : hasEdge db.category_objects srcCat.ID x.ID = false := by
        rw [hxid]
        exact h sf hsf.1 (hnid ▸ hsf.2) srcCat hsrcCat.1 hsrcCat.2
      simp [hfalse]
    | inr h =>
      have hfalse : hasEdge db.category_morphisms tgtCat.ID m.ID = false := by
        rw [hmid]
        exact h tf htf.1 (hnid ▸ htf.2) tgtCat htgtCat.1 htgtCat.2
      simp [hfalse]
  have h1 : add_functor_object_mapping db fid sid tid = (db, true) := by
    unfold add_functor_object_mapping
    rw [hrowsA]
    simp
  have h3 : add_nt_component db nid xid mid = (db, true) := by
    unfold add_nt_component
    rw [hrowsB]
    simp
  refine ⟨h1, ?_, h3⟩
  rw [h1]

/-- C2 witness: in the demo database, mapping FX (an object of D, not of C)
under F : C → D is a silent no-op, as is adding an NT component at FX. -/
theorem C2_mapping_typing_failure_silent_noop_witness :
    (∀ sc ∈ demoDB.categories, hasEdge demoDB.functor_source 0 sc.ID = true →
       hasEdge demoDB.category_objects sc.ID 2 = false) ∧
    add_functor_object_mapping demoDB 0 2 4 = (demoDB, true) ∧
    get_functor_object_mappings (add_functor_object_mapping demoDB 0 2 4).1 0 =
      get_functor_object_mappings demoDB 0 ∧
    add_nt_component demoDB 0 2 3 = (demoDB, true) := by
  have h := C2_mapping_typing_failure_silent_noop demoDB 0 2 4 0 2 3
    (Or.inl (by decide)) (Or.inl (by decide))
  exact ⟨by decide, h.1, h.2.1, h.2.2⟩

/-- C3: creating a Category whose name is already taken, or an Object or
Morphism whose name is already taken by an entity of the same kind in the same
category, fails with a duplicate-name error carrying the colliding name and the
existing id; creating a same-named Object, and likewise a same-named Morphism,
in two different categories succeeds for both. -/
theorem C3_duplicate_name_enforcement (db : DB) (nm d : String) (cid cidA cidB : Nat) :
    ((∃ c ∈ db.categories, c.name = nm) →
       ∃ c2 ∈ db.categories, c2.name = nm ∧
         create_category db nm d = .error (catDupMsg nm c2.ID)) ∧
    ((∃ o ∈ objectsInCategory db cid, o.name = nm) →
       ∃ o2 ∈ objectsInCategory db cid, o2.name = nm ∧
         create_object db nm cid d = .error (objDupMsg nm cid o2.ID)) ∧
    ((∃ m ∈ morphismRowsInCategory db cid, m.name = nm) → ∀ srcId tgtId,
       ∃ m2 ∈ morphismRowsInCategory db cid, m2.name = nm ∧
         create_morphism db nm srcId tgtId cid d = .error (morphDupMsg nm cid m2.ID)) ∧
    ((∀ e ∈ db.category_objects, e.tgt ≠ db.nextObjectId) → cidA ≠ cidB →
     (∀ o ∈ objectsInCategory db cidA, o.name ≠ nm) →
     (∀ o ∈ objectsInCategory db cidB, o.name ≠ nm) →
       ∃ oidA db1 oidB db2, create_object db nm cidA d = .ok (oidA, db1) ∧
         create_object db1 nm cidB d = .ok (oidB, db2)) ∧
    ((∀ e ∈ db.category_morphisms, e.tgt ≠ db.nextMorphismId) → cidA ≠ cidB →
     (∀ m ∈ morphismRowsInCategory db cidA, m.name ≠ nm) →
     (∀ m ∈ morphismRowsInCategory db cidB, m.name ≠ nm) →
     ∀ srcA tgtA srcB tgtB : Nat,
       ∃ midA dbA midB dbB, create_morphism db nm srcA tgtA cidA d = .ok (midA, dbA) ∧
         create_morphism dbA nm srcB tgtB cidB d = .ok (midB, dbB)) := by
  refine ⟨?_, ?_, ?_, ?_, ?_⟩
  · rintro ⟨c, hc, hcnm⟩
    have hsome : ((list_categories db).find? (fun x => x.name == nm)).isSome := by
      rw [List.find?_isSome]
      exact ⟨c, (mem_sortByKey _ _ _).mpr hc, by simp [hcnm]⟩
    obtain ⟨c2, hc2⟩ := Option.isSome_iff_exists.mp hsome
    refine ⟨c2, (mem_sortByKey _ _ _).mp (List.mem_of_find?_eq_some hc2), ?_, ?_⟩
    · have := List.find?_some hc2
      simpa using this
    · unfold create_category
      rw [hc2]
  · rintro ⟨o, ho, honm⟩
    have hsome : ((get_objects_in_category db cid).find? (fun x => x.name == nm)).isSome := by
      rw [List.find?_isSome]
      exact ⟨o, (mem_sortByKey _ _ _).mpr ho, by simp [honm]⟩
    obtain ⟨o2, ho2⟩ := Option.isSome_iff_exists.mp hsome
    refine ⟨o2, (mem_sortByKey _ _ _).mp (List.mem_of_find?_eq_some ho2), ?_, ?_⟩
    · have := List.find?_some ho2
      simpa using this
    · unfold create_object
      rw [ho2]
  · rintro ⟨m, hm, hmnm⟩ srcId tgtId
    have hsome : ((get_morphisms_in_category db cid).find? (fun x => x.name == nm)).isSome := by
      rw [List.find?_isSome]
      exact ⟨m, (mem_sortByKey _ _ _).mpr hm, by simp [hmnm]⟩
    obtain ⟨m2, hm2⟩ := Option.isSome_iff_exists.mp hsome
    refine ⟨m2, (mem_sortByKey _ _ _).mp (List.mem_of_find?_eq_some hm2), ?_, ?_⟩
    · have := List.find?_some hm2
      simpa using this
    · unfold create_morphism
      rw [hm2]
  · intro hfresh hAB hA hB
    have hfindA : (get_objects_in_category db cidA).find? (fun o => o.name == nm) = none := by
      rw [List.find?_eq_none]
      intro o ho
      have hne := hA o ((mem_sortByKey _ _ _).mp ho)
      simp [hne]
    have e1 : ∃ r, create_object db nm cidA d = .ok r := by
      unfold create_object
      rw [hfindA]
      exact ⟨_, rfl⟩
    obtain ⟨⟨oidA, db1⟩, e1⟩ := e1
    obtain ⟨hoidA, hobjs, hcats, hnext, hco⟩ := create_object_state hfindA e1
    have hfindB : (get_objects_in_category db1 cidB).find? (fun o => o.name == nm) = none := by
      rw [List.find?_eq_none]
      intro o ho
      have ho' := (mem_sortByKey _ _ _).mp ho
      unfold objectsInCategory at ho'
      by_cases hex : categoryExists db1 cidB = true
      · rw [if_pos hex] at ho'
        rw [List.mem_filter] at ho'
        obtain ⟨homem, hoedge⟩ := ho'
        rw [hobjs] at homem
        have hedge0 : hasEdge db.category_objects cidB o.ID = true := by
          cases hco with
          | inl hsame => rw [hsame] at hoedge; exact hoedge
          | inr happ =>
            rw [happ, hasEdge_append_single] at hoedge
            rcases Bool.or_eq_true_iff.mp hoedge with h | h
            · exact h
            · rw [Bool.and_eq_true, beq_iff_eq] at h
              exact absurd h.1 hAB
        rcases List.mem_append.mp homem with hold | hnew
        · have hexdb : categoryExists db cidB = true := by
            unfold categoryExists at hex ⊢
            rw [hcats] at hex
            exact hex
          have homemdb : o ∈ objectsInCategory db cidB := by
            unfold objectsInCategory
            rw [if_pos hexdb]
            exact List.mem_filter.mpr ⟨hold, hedge0⟩
          have hne := hB o homemdb
          simp [hne]
        · have hoid : o.ID = db.nextObjectId := by
            rcases List.mem_singleton.mp hnew with rfl
            rfl
          obtain ⟨e, he, _, hetgt⟩ := exists_of_hasEdge hedge0
          rw [hoid] at hetgt
          exact absurd hetgt (hfresh e he)
      · rw [if_neg hex] at ho'
        cases ho'
    have e2 : ∃ r, create_object db1 nm cidB d = .ok r := by
      unfold create_object
      rw [hfindB]
      exact ⟨_, rfl⟩
    obtain ⟨⟨oidB, db2⟩, e2⟩ := e2
    exact ⟨oidA, db1, oidB, db2, e1, e2⟩
  · intro hfreshM hAB hA hB srcA tgtA srcB tgtB
    have hfindA : (get_morphisms_in_category db cidA).find? (fun m => m.name == nm) = none := by
      rw [List.find?_eq_none]
      intro m hm
      have hne := hA m ((mem_sortByKey _ _ _).mp hm)
      simp [hne]
    have e1 : ∃ r, create_morphism db nm srcA tgtA cidA d = .ok r := by
      unfold create_morphism
      rw [hfindA]
      exact ⟨_, rfl⟩
    obtain ⟨⟨midA, dbA⟩, e1⟩ := e1
    obtain ⟨hmid, hmors, hcats, hcm⟩ := create_morphism_state hfindA e1
    have hfindB : (get_morphisms_in_category dbA cidB).find? (fun m => m.name == nm) = none := by
      rw [List.find?_eq_none]
      intro row hrow
      have hrow' := (mem_sortByKey _ _ _).mp hrow
      unfold morphismRowsInCategory at hrow'
      by_cases hex : categoryExists dbA cidB = true
      · rw [if_pos hex] at hrow'
        rw [List.mem_flatMap] at hrow'
        obtain ⟨m, hmmem, hrest⟩ := hrow'
        rw [List.mem_filter] at hmmem
        obtain ⟨hmin, hmedge⟩ := hmmem
        have hname : row.name = m.name := by
          rw [List.mem_flatMap] at hrest
          obtain ⟨s?, hs, hrest2⟩ := hrest
          rw [List.mem_map] at hrest2
          obtain ⟨t?, ht, hrow_eq⟩ := hrest2
          rw [← hrow_eq]
        rw [hmors] at hmin
        have hedge0 : hasEdge db.category_morphisms cidB m.ID = true := by
          cases hcm with
          | inl hsame => rw [hsame] at hmedge; exact hmedge
          | inr happ =>
            rw [happ, hasEdge_append_single] at hmedge
            rcases Bool.or_eq_true_iff.mp hmedge with hh | hh
            · exact hh
            · rw [Bool.and_eq_true, beq_iff_eq] at hh
              exact absurd hh.1 hAB
        rcases List.mem_append.mp hmin with hold | hnew
        · have hexdb : categoryExists db cidB = true := by
            unfold categoryExists at hex ⊢
            rw [hcats] at hex
            exact hex
          obtain ⟨s0, hs0⟩ := exists_mem_optMatch (sourceObjectsOf db m.ID)
          obtain ⟨t0, ht0⟩ := exists_mem_optMatch (targetObjectsOf db m.ID)
          have hrowdb : (⟨m.ID, m.name, m.description, m.is_identity,
              s0.map (fun o => o.name), t0.map (fun o => o.name)⟩ : MorphismListing) ∈
              morphismRowsInCategory db cidB := by
            unfold morphismRowsInCategory
            rw [if_pos hexdb]
            rw [List.mem_flatMap]
            refine ⟨m, List.mem_filter.mpr ⟨hold, hedge0⟩, ?_⟩
            rw [List.mem_flatMap]
            exact ⟨s0, hs0, List.mem_map.mpr ⟨t0, ht0, rfl⟩⟩
          have hnever := hB _ hrowdb
          intro hc
          rw [beq_iff_eq] at hc
          rw [hname] at hc
          exact hnever hc
        · have hmid' : m.ID = db.nextMorphismId := by
            rcases List.mem_singleton.mp hnew with rfl
            rfl
          obtain ⟨e, he, _, hetgt⟩ := exists_of_hasEdge hedge0
          rw [hmid'] at hetgt
          exact absurd hetgt (hfreshM e he)
      · rw [if_neg hex] at hrow'
        cases hrow'
    have e2 : ∃ r, create_morphism dbA nm srcB tgtB cidB d = .ok r := by
      unfold create_morphism
      rw [hfindB]
      exact ⟨_, rfl⟩
    obtain ⟨⟨midB, dbB⟩, e2⟩ := e2
    exact ⟨midA, dbA, midB, dbB, e1, e2⟩

/-- C3 witness: in the demo database, re-creating "C", "X" or "f" fails with
the duplicate-name error naming the existing id, while creating an object "Z"
(and likewise a morphism "k") first in category C and then in category D
succeeds both times. -/
theorem C3_duplicate_name_enforcement_witness :
    (∃ c ∈ demoDB.categories, c.name = "C") ∧
    (∃ c2 ∈ demoDB.categories, c2.name = "C" ∧
      create_category demoDB "C" "x" = .error (catDupMsg "C" c2.ID)) ∧
    (∃ o ∈ objectsInCategory demoDB 0, o.name = "X") ∧
    (∃ o2 ∈ objectsInCategory demoDB 0, o2.name = "X" ∧
      create_object demoDB "X" 0 "x" = .error (objDupMsg "X" 0 o2.ID)) ∧
    (∃ m ∈ morphismRowsInCategory demoDB 0, m.name = "f") ∧
    (∃ m2 ∈ morphismRowsInCategory demoDB 0, m2.name = "f" ∧
      create_morphism demoDB "f" 0 1 0 "x" = .error (morphDupMsg "f" 0 m2.ID)) ∧
    (∃ oidA db1 oidB db2, create_object demoDB "Z" 0 "x" = .ok (oidA, db1) ∧
      create_object db1 "Z" 1 "x" = .ok (oidB, db2)) ∧
    (∃ midA dbA midB dbB, create_morphism demoDB "k" 0 1 0 "x" = .ok (midA, dbA) ∧
      create_morphism dbA "k" 2 3 1 "x" = .ok (midB, dbB)) :=
  ⟨⟨⟨0, "C", "dom"⟩, by decide, rfl⟩,
   (C3_duplicate_name_enforcement demoDB "C" "x" 0 0 1).1
     ⟨⟨0, "C", "dom"⟩, by decide, rfl⟩,
   ⟨⟨0, "X", ""⟩, by decide, rfl⟩,
   (C3_duplicate_name_enforcement demoDB "X" "x" 0 0 1).2.1
     ⟨⟨0, "X", ""⟩, by decide, rfl⟩,
   ⟨⟨0, "f", "", false, some "X", some "Y"⟩, by decide, rfl⟩,
   (C3_duplicate_name_enforcement demoDB "f" "x" 0 0 1).2.2.1
     ⟨⟨0, "f", "", false, some "X", some "Y"⟩, by decide, rfl⟩ 0 1,
   (C3_duplicate_name_enforcement demoDB "Z" "x" 0 0 1).2.2.2.1
     (by decide) (by decide) (by decide) (by decide),
   (C3_duplicate_name_enforcement demoDB "k" "x" 0 0 1).2.2.2.2
     (by decide) (by decide) (by decide) (by decide) 0 1 2 3⟩

/-- C4: after `delete_category` on an existing category, the category itself
reads back as not-found, every object that was linked to it reads back as
not-found, and its morphism listing is empty. -/
theorem C4_delete_category_cascades (db : DB) (cid : Nat)
    (hcat : categoryExists db cid = true) :
    get_category (delete_category db cid).1 cid = none ∧
    (∀ o ∈ db.objects, hasEdge db.category_objects cid o.ID = true →
       get_object (delete_category db cid).1 o.ID = none) ∧
    get_morphisms_in_category (delete_category db cid).1 cid = [] := by
  have hDcats : (delete_category db cid).1.categories =
      db.categories.filter (fun c => !(categoryExists db cid && c.ID == cid)) := rfl
  have hDobjs : (delete_category db cid).1.objects =
      db.objects.filter (fun r =>
        !(categoryExists db cid && objectExists db r.ID &&
          hasEdge db.category_objects cid r.ID)) := rfl
  have hDex : categoryExists (delete_category db cid).1 cid = false := by
    unfold categoryExists
    rw [hDcats, Bool.eq_false_iff]
    intro hc
    rw [List.any_eq_true] at hc
    obtain ⟨c, hcmem, hcid⟩ := hc
    rw [List.mem_filter, hcat] at hcmem
    rw [hcid] at hcmem
    simp at hcmem
  refine ⟨?_, ?_, ?_⟩
  · unfold get_category
    rw [hDcats, List.find?_eq_none]
    intro c hcmem
    rw [List.mem_filter, hcat] at hcmem
    simp only [Bool.true_and] at hcmem
    simpa using hcmem.2
  · intro o hmem hedge
    unfold get_object
    rw [hDobjs, List.find?_eq_none]
    intro r hrmem
    rw [List.mem_filter] at hrmem
    intro hreq0
    rw [beq_iff_eq] at hreq0
    rw [hreq0] at hrmem
    have hoex : objectExists db o.ID = true := by
      unfold objectExists
      rw [List.any_eq_true]
      exact ⟨o, hmem, by simp⟩
    simp [hcat, hoex, hedge] at hrmem
  · unfold get_morphisms_in_category morphismRowsInCategory
    rw [if_neg]
    · simp [sortByKey, sortLe]
    · rw [hDex]
      simp

/-- C4 witness: deleting category C (id 0) of the demo database removes it,
removes its object X (id 0), and empties its morphism listing. -/
theorem C4_delete_category_cascades_witness :
    categoryExists demoDB 0 = true ∧
    (⟨0, "X", ""⟩ : ObjectRow) ∈ demoDB.objects ∧
    hasEdge demoDB.category_objects 0 0 = true ∧
    get_category (delete_category demoDB 0).1 0 = none ∧
    get_object (delete_category demoDB 0).1 0 = none ∧
    get_morphisms_in_category (delete_category demoDB 0).1 0 = [] := by
  have h := C4_delete_category_cascades demoDB 0 (by decide)
  exact ⟨by decide, by decide, by decide, h.1,
    h.2.1 ⟨0, "X", ""⟩ (by decide) (by decide), h.2.2⟩

/-- C5: `delete_object` removes exactly the morphisms referencing the object
as source or target — whatever category owns them — plus the object itself;
every other morphism survives with its source and target objects (hence their
names) unchanged. -/
theorem C5_delete_object_scoped_cascade (db : DB) (aid : Nat)
    (ha : objectExists db aid = true) :
    (delete_object db aid).2 = true ∧
    (∀ m ∈ db.morphisms,
       (hasEdge db.morphism_source m.ID aid || hasEdge db.morphism_target m.ID aid) = true →
         m ∉ (delete_object db aid).1.morphisms) ∧
    (∀ m ∈ db.morphisms,
       (hasEdge db.morphism_source m.ID aid || hasEdge db.morphism_target m.ID aid) = false →
         m ∈ (delete_object db aid).1.morphisms ∧
         sourceObjectsOf (delete_object db aid).1 m.ID = sourceObjectsOf db m.ID ∧
         targetObjectsOf (delete_object db aid).1 m.ID = targetObjectsOf db m.ID) ∧
    get_object (delete_object db aid).1 aid = none := by
  have hmor : (delete_object db aid).1.morphisms =
      db.morphisms.filter (fun m =>
        !(objectExists db aid && morphismExists db m.ID &&
          (hasEdge db.morphism_source m.ID aid || hasEdge db.morphism_target m.ID aid))) := rfl
  have hobjs : (delete_object db aid).1.objects =
      db.objects.filter (fun r => !(objectExists db aid && r.ID == aid)) := rfl
  have hms : (delete_object db aid).1.morphism_source =
      (db.morphism_source.filter (fun e =>
        !(objectExists db aid && morphismExists db e.src &&
          (hasEdge db.morphism_source e.src aid ||
            hasEdge db.morphism_target e.src aid)))).filter
        (fun e => !(objectExists db aid && e.tgt == aid)) := rfl
  have hmt : (delete_object db aid).1.morphism_target =
      (db.morphism_target.filter (fun e =>
        !(objectExists db aid && morphismExists db e.src &&
          (hasEdge db.morphism_source e.src aid ||
            hasEdge db.morphism_target e.src aid)))).filter
        (fun e => !(objectExists db aid && e.tgt == aid)) := rfl
  refine ⟨rfl, ?_, ?_, ?_⟩
  · intro m hm hedge hmem'
    rw [hmor, List.mem_filter] at hmem'
    have hmex : morphismExists db m.ID = true := by
      unfold morphismExists
      rw [List.any_eq_true]
      exact ⟨m, hm, by simp⟩
    rw [ha, hmex, hedge] at hmem'
    simp at hmem'
  · intro m hm hedgef
    obtain ⟨h1, h2⟩ := Bool.or_eq_false_iff.mp hedgef
    have hkeep : m ∈ (delete_object db aid).1.morphisms := by
      rw [hmor]
      apply List.mem_filter.mpr
      refine ⟨hm, ?_⟩
      rw [hedgef]
      simp
    refine ⟨hkeep, ?_, ?_⟩
    · have hPsrc : ∀ x : Nat,
          hasEdge (delete_object db aid).1.morphism_source m.ID x =
            hasEdge db.morphism_source m.ID x := by
        intro x
        rw [hms]
        by_cases hx : x = aid
        · subst hx
          rw [h1]
          exact hasEdge_filter_false _ _ _ _ (hasEdge_filter_false _ _ _ _ h1)
        · refine Eq.trans (hasEdge_filter_eq _ _ _ _ ?_) (hasEdge_filter_eq _ _ _ _ ?_)
          · intro e he hesrc hetgt
            rw [hetgt]
            simp [hx]
          · intro e he hesrc hetgt
            rw [hesrc, hedgef]
            simp
      unfold sourceObjectsOf
      rw [hobjs]
      refine Eq.trans (List.filter_congr ?_) (filter_filter_eq _ _ _ ?_)
      · intro o _
        exact hPsrc o.ID
      · intro r hr hq
        rw [ha] at hq
        have hrid : r.ID = aid := by simpa using hq
        rw [hrid]
        exact h1
    · have hPtgt : ∀ x : Nat,
          hasEdge (delete_object db aid).1.morphism_target m.ID x =
            hasEdge db.morphism_target m.ID x := by
        intro x
        rw [hmt]
        by_cases hx : x = aid
        · subst hx
          rw [h2]
          exact hasEdge_filter_false _ _ _ _ (hasEdge_filter_false _ _ _ _ h2)
        · refine Eq.trans (hasEdge_filter_eq _ _ _ _ ?_) (hasEdge_filter_eq _ _ _ _ ?_)
          · intro e he hesrc hetgt
            rw [hetgt]
            simp [hx]
          · intro e he hesrc hetgt
            rw [hesrc, hedgef]
            simp
      unfold targetObjectsOf
      rw [hobjs]
      refine Eq.trans (List.filter_congr ?_) (filter_filter_eq _ _ _ ?_)
      · intro o _
        exact hPtgt o.ID
      · intro r hr hq
        rw [ha] at hq
        have hrid : r.ID = aid := by simpa using hq
        rw [hrid]
        exact h2
  · unfold get_object
    rw [hobjs, List.find?_eq_none]
    intro r hr
    rw [List.mem_filter, ha] at hr
    intro hreq
    rw [hreq] at hr
    simp at hr

/-- C5 witness: deleting X (id 0) of the demo database removes the morphism
f : X → Y but leaves Gf : GX → GY intact with its endpoints, and X reads back
as not-found. -/
theorem C5_delete_object_scoped_cascade_witness :
    objectExists demoDB 0 = true ∧
    (⟨0, "f", "", false⟩ : MorphismRow) ∈ demoDB.morphisms ∧
    (hasEdge demoDB.morphism_source 0 0 || hasEdge demoDB.morphism_target 0 0) = true ∧
    (⟨0, "f", "", false⟩ : MorphismRow) ∉ (delete_object demoDB 0).1.morphisms ∧
    (⟨2, "Gf", "", false⟩ : MorphismRow) ∈ demoDB.morphisms ∧
    (hasEdge demoDB.morphism_source 2 0 || hasEdge demoDB.morphism_target 2 0) = false ∧
    (⟨2, "Gf", "", false⟩ : MorphismRow) ∈ (delete_object demoDB 0).1.morphisms ∧
    sourceObjectsOf (delete_object demoDB 0).1 2 = sourceObjectsOf demoDB 2 ∧
    targetObjectsOf (delete_object demoDB 0).1 2 = targetObjectsOf demoDB 2 ∧
    get_object (delete_object demoDB 0).1 0 = none := by
  have h := C5_delete_object_scoped_cascade demoDB 0 (by decide)
  have hGf := h.2.2.1 ⟨2, "Gf", "", false⟩ (by decide) (by decide)
  exact ⟨by decide, by decide, by decide,
    h.2.1 ⟨0, "f", "", false⟩ (by decide) (by decide), by decide, by decide,
    hGf.1, hGf.2.1, hGf.2.2, h.2.2.2⟩

/-- C1: for a natural transformation linked to functors F and G with shared
source category C and equal codomain, and a morphism f : X → Y of C whose
components α_X, α_Y and mappings F(f), G(f) are all present,
`validate_naturality` emits the well-typed square message exactly when
`G(f).source == α_X.target` and `G(f).target == α_Y.target` and
`α_Y.source == F(f).target` and `α_X.source == F(f).source` (all compared by
target-category display names), and the not-well-typed message otherwise;
the emitted message appears in the result. -/
theorem C1_naturality_shape_check (db : DB) (ntid : Nat) (F : FunctorRow)
    (C : CategoryRow) (D1 : CategoryRow) (G : FunctorRow) (D2 : CategoryRow)
    (hlinks : (naturalityLinkRows db ntid).head? = some (some (F, C), some D1, some (G, D2)))
    (hDD : D1.ID = D2.ID)
    (fId : Nat) (fName : String) (X Y : ObjectRow)
    (hrow : (fId, fName, some X, some Y) ∈ naturalityMorphRows db C.ID)
    (aX aY : NTComponentRow)
    (haX : lookupAlpha (get_nt_components db ntid) X.ID = some aX)
    (haY : lookupAlpha (get_nt_components db ntid) Y.ID = some aY)
    (Ff Gf : Nat × String × Option String × Option String)
    (hF : (mappedMorphRows db F.ID fId).head? = some Ff)
    (hG : (mappedMorphRows db G.ID fId).head? = some Gf) :
    naturalityRowMsg db F.ID G.ID (get_nt_components db ntid) (fId, fName, some X, some Y) =
      some (squareMsg fName
        ((Gf.2.2.1 == aX.target_object) && (Gf.2.2.2 == aY.target_object) &&
         (aY.source_object == Ff.2.2.2) && (aX.source_object == Ff.2.2.1))) ∧
    squareMsg fName
        ((Gf.2.2.1 == aX.target_object) && (Gf.2.2.2 == aY.target_object) &&
         (aY.source_object == Ff.2.2.2) && (aX.source_object == Ff.2.2.1)) ∈
      validate_naturality db ntid := by
  have hbody : naturalityRowMsg db F.ID G.ID (get_nt_components db ntid)
      (fId, fName, some X, some Y) =
      some (squareMsg fName
        ((Gf.2.2.1 == aX.target_object) && (Gf.2.2.2 == aY.target_object) &&
         (aY.source_object == Ff.2.2.2) && (aX.source_object == Ff.2.2.1))) := by
    simp only [naturalityRowMsg, haX, haY, hF, hG]
  exact ⟨hbody, naturality_msg_mem db ntid F C D1 G D2 hlinks hDD hrow hbody⟩

/-- C1 witness: in the demo database, the transformation alpha : F ⇒ G is
fully specified for f : X → Y with a shape-consistent square, so the
conjunction holds and the well-typed message is produced and reported. -/
theorem C1_naturality_shape_check_witness :
    (naturalityLinkRows demoDB 0).head? =
      some (some (⟨0, "F", ""⟩, ⟨0, "C", "dom"⟩), some ⟨1, "D", "cod"⟩,
        some (⟨1, "G", ""⟩, ⟨1, "D", "cod"⟩)) ∧
    (0, "f", some (⟨0, "X", ""⟩ : ObjectRow), some (⟨1, "Y", ""⟩ : ObjectRow)) ∈
      naturalityMorphRows demoDB 0 ∧
    ((some "GX" == some "GX") && (some "GY" == some "GY") &&
     (some "FY" == some "FY") && (some "FX" == some "FX")) = true ∧
    naturalityRowMsg demoDB 0 1 (get_nt_components demoDB 0)
      (0, "f", some ⟨0, "X", ""⟩, some ⟨1, "Y", ""⟩) =
      some (squareMsg "f"
        ((some "GX" == some "GX") && (some "GY" == some "GY") &&
         (some "FY" == some "FY") && (some "FX" == some "FX"))) ∧
    squareMsg "f"
        ((some "GX" == some "GX") && (some "GY" == some "GY") &&
         (some "FY" == some "FY") && (some "FX" == some "FX")) ∈
      validate_naturality demoDB 0 := by
  have h := C1_naturality_shape_check demoDB 0 ⟨0, "F", ""⟩ ⟨0, "C", "dom"⟩
    ⟨1, "D", "cod"⟩ ⟨1, "G", ""⟩ ⟨1, "D", "cod"⟩ (by decide) rfl
    0 "f" ⟨0, "X", ""⟩ ⟨1, "Y", ""⟩ (by decide)
    ⟨some 0, 3, "aX", some 2, some "FX", some 4, some "GX"⟩
    ⟨some 1, 4, "aY", some 3, some "FY", some 5, some "GY"⟩
    (by decide) (by decide)
    (1, "Ff", some "FX", some "FY") (2, "Gf", some "GX", some "GY")
    (by decide) (by decide)
  exact ⟨by decide, by decide, by decide, h.1, h.2⟩

/-- C6: for a morphism f : X → Y of the source category, a missing component
α_X or α_Y makes `validate_naturality` emit the skip message for f and keep
going (a normal message in a normal result, no error); present components with
a missing F(f) or G(f) mapping yield the missing-mapping message instead; and
removing the F(f) mapping switches f's report from the square verdict to the
missing-mapping message rather than to an error. -/
theorem C6_skip_and_missing_mapping :
    (∀ (db : DB) (ntid : Nat) (F : FunctorRow) (C : CategoryRow) (D1 : CategoryRow)
       (G : FunctorRow) (D2 : CategoryRow) (fId : Nat) (fName : String) (X Y : ObjectRow),
       (naturalityLinkRows db ntid).head? = some (some (F, C), some D1, some (G, D2)) →
       D1.ID = D2.ID →
       (fId, fName, some X, some Y) ∈ naturalityMorphRows db C.ID →
       (lookupAlpha (get_nt_components db ntid) X.ID = none ∨
        lookupAlpha (get_nt_components db ntid) Y.ID = none) →
       naturalityRowMsg db F.ID G.ID (get_nt_components db ntid)
           (fId, fName, some X, some Y) = some (skipAlphaMsg fName) ∧
       skipAlphaMsg fName ∈ validate_naturality db ntid) ∧
    (∀ (db : DB) (ntid : Nat) (F : FunctorRow) (C : CategoryRow) (D1 : CategoryRow)
       (G : FunctorRow) (D2 : CategoryRow) (fId : Nat) (fName : String) (X Y : ObjectRow)
       (aX aY : NTComponentRow),
       (naturalityLinkRows db ntid).head? = some (some (F, C), some D1, some (G, D2)) →
       D1.ID = D2.ID →
       (fId, fName, some X, some Y) ∈ naturalityMorphRows db C.ID →
       lookupAlpha (get_nt_components db ntid) X.ID = some aX →
       lookupAlpha (get_nt_components db ntid) Y.ID = some aY →
       ((mappedMorphRows db F.ID fId).head? = none ∨
        (mappedMorphRows db G.ID fId).head? = none) →
       naturalityRowMsg db F.ID G.ID (get_nt_components db ntid)
           (fId, fName, some X, some Y) = some (missingMappingMsg fName) ∧
       missingMappingMsg fName ∈ validate_naturality db ntid) ∧
    (∀ (db : DB) (ntid : Nat) (F : FunctorRow) (C : CategoryRow) (D1 : CategoryRow)
       (G : FunctorRow) (D2 : CategoryRow) (fId : Nat) (fName : String) (X Y : ObjectRow)
       (aX aY : NTComponentRow) (Ff Gf : Nat × String × Option String × Option String),
       (naturalityLinkRows db ntid).head? = some (some (F, C), some D1, some (G, D2)) →
       D1.ID = D2.ID →
       (fId, fName, some X, some Y) ∈ naturalityMorphRows db C.ID →
       lookupAlpha (get_nt_components db ntid) X.ID = some aX →
       lookupAlpha (get_nt_components db ntid) Y.ID = some aY →
       (mappedMorphRows db F.ID fId).head? = some Ff →
       (mappedMorphRows db G.ID fId).head? = some Gf →
       F.ID ≠ G.ID →
       naturalityRowMsg db F.ID G.ID (get_nt_components db ntid)
           (fId, fName, some X, some Y) =
         some (squareMsg fName
           ((Gf.2.2.1 == aX.target_object) && (Gf.2.2.2 == aY.target_object) &&
            (aY.source_object == Ff.2.2.2) && (aX.source_object == Ff.2.2.1))) ∧
       naturalityRowMsg (remove_functor_morphism_mapping db F.ID fId).1 F.ID G.ID
           (get_nt_components db ntid) (fId, fName, some X, some Y) =
         some (missingMappingMsg fName) ∧
       missingMappingMsg fName ∈
         validate_naturality (remove_functor_morphism_mapping db F.ID fId).1 ntid) := by
  refine ⟨?_, ?_, ?_⟩
  · intro db ntid F C D1 G D2 fId fName X Y hlinks hDD hrow halpha
    have hbody : naturalityRowMsg db F.ID G.ID (get_nt_components db ntid)
        (fId, fName, some X, some Y) = some (skipAlphaMsg fName) := by
      rcases halpha with h | h
      · simp only [naturalityRowMsg, h]
      · cases hX : lookupAlpha (get_nt_components db ntid) X.ID with
        | none => simp only [naturalityRowMsg, hX]
        | some aX => simp only [naturalityRowMsg, hX, h]
    exact ⟨hbody, naturality_msg_mem db ntid F C D1 G D2 hlinks hDD hrow hbody⟩
  · intro db ntid F C D1 G D2 fId fName X Y aX aY hlinks hDD hrow haX haY hmap
    have hbody : naturalityRowMsg db F.ID G.ID (get_nt_components db ntid)
        (fId, fName, some X, some Y) = some (missingMappingMsg fName) := by
      rcases hmap with h | h
      · simp only [naturalityRowMsg, haX, haY, h]
      · cases hFh : (mappedMorphRows db F.ID fId).head? with
        | none => simp only [naturalityRowMsg, haX, haY, hFh]
        | some Ff => simp only [naturalityRowMsg, haX, haY, hFh, h]
    exact ⟨hbody, naturality_msg_mem db ntid F C D1 G D2 hlinks hDD hrow hbody⟩
  · intro db ntid F C D1 G D2 fId fName X Y aX aY Ff Gf hlinks hDD hrow haX haY hF hG hFG
    have hbody1 : naturalityRowMsg db F.ID G.ID (get_nt_components db ntid)
        (fId, fName, some X, some Y) =
        some (squareMsg fName
          ((Gf.2.2.1 == aX.target_object) && (Gf.2.2.2 == aY.target_object) &&
           (aY.source_object == Ff.2.2.2) && (aX.source_object == Ff.2.2.1))) := by
      simp only [naturalityRowMsg, haX, haY, hF, hG]
    have hproj : (remove_functor_morphism_mapping db F.ID fId).1.functor_morphism_map =
        db.functor_morphism_map.filter
          (fun e => !(e.via_functor_id == F.ID && e.src == fId)) := rfl
    have hm : (remove_functor_morphism_mapping db F.ID fId).1.morphisms = db.morphisms := rfl
    have hso : ∀ mid, sourceObjectsOf (remove_functor_morphism_mapping db F.ID fId).1 mid =
        sourceObjectsOf db mid := fun _ => rfl
    have hto : ∀ mid, targetObjectsOf (remove_functor_morphism_mapping db F.ID fId).1 mid =
        targetObjectsOf db mid := fun _ => rfl
    have hFr : mappedMorphRows (remove_functor_morphism_mapping db F.ID fId).1 F.ID fId = [] := by
      unfold mappedMorphRows
      rw [hproj, List.flatMap_eq_nil_iff]
      intro e he
      rw [List.mem_filter] at he
      have h2 := he.2
      have hcond : (e.via_functor_id == F.ID && e.src == fId) = false := by
        cases hc : (e.via_functor_id == F.ID && e.src == fId) with
        | false => rfl
        | true =>
          rw [hc] at h2
          simp at h2
      simp [hcond]
    have hbody2 : naturalityRowMsg (remove_functor_morphism_mapping db F.ID fId).1 F.ID G.ID
        (get_nt_components db ntid) (fId, fName, some X, some Y) =
        some (missingMappingMsg fName) := by
      simp only [naturalityRowMsg, haX, haY, hFr, List.head?_nil]
    have hlr : naturalityLinkRows (remove_functor_morphism_mapping db F.ID fId).1 ntid =
        naturalityLinkRows db ntid := rfl
    have hmr : naturalityMorphRows (remove_functor_morphism_mapping db F.ID fId).1 C.ID =
        naturalityMorphRows db C.ID := rfl
    have hcomps : get_nt_components (remove_functor_morphism_mapping db F.ID fId).1 ntid =
        get_nt_components db ntid := rfl
    have hlinks2 : (naturalityLinkRows (remove_functor_morphism_mapping db F.ID fId).1 ntid).head? =
        some (some (F, C), some D1, some (G, D2)) := by
      rw [hlr]
      exact hlinks
    have hrow2 : (fId, fName, some X, some Y) ∈
        naturalityMorphRows (remove_functor_morphism_mapping db F.ID fId).1 C.ID := by
      rw [hmr]
      exact hrow
    have hbody2' : naturalityRowMsg (remove_functor_morphism_mapping db F.ID fId).1 F.ID G.ID
        (get_nt_components (remove_functor_morphism_mapping db F.ID fId).1 ntid)
        (fId, fName, some X, some Y) = some (missingMappingMsg fName) := by
      rw [hcomps]
      exact hbody2
    exact ⟨hbody1, hbody2,
      naturality_msg_mem (remove_functor_morphism_mapping db F.ID fId).1 ntid F C D1 G D2
        hlinks2 hDD hrow2 hbody2'⟩

/-- C6 witness: in `skipDB`, beta has no components so f is skipped; in
`missDB`, gamma rides on H which maps no morphisms so f reports a missing
mapping; and in `demoDB`, removing the F(f) mapping from alpha switches f's
report from the square verdict to the missing-mapping message. -/
theorem C6_skip_and_missing_mapping_witness :
    lookupAlpha (get_nt_components skipDB 0) 0 = none ∧
    naturalityRowMsg skipDB 0 1 (get_nt_components skipDB 0)
      (0, "f", some ⟨0, "X", ""⟩, some ⟨1, "Y", ""⟩) = some (skipAlphaMsg "f") ∧
    skipAlphaMsg "f" ∈ validate_naturality skipDB 0 ∧
    (mappedMorphRows missDB 2 0).head? = none ∧
    naturalityRowMsg missDB 2 1 (get_nt_components missDB 0)
      (0, "f", some ⟨0, "X", ""⟩, some ⟨1, "Y", ""⟩) = some (missingMappingMsg "f") ∧
    missingMappingMsg "f" ∈ validate_naturality missDB 0 ∧
    naturalityRowMsg demoDB 0 1 (get_nt_components demoDB 0)
      (0, "f", some ⟨0, "X", ""⟩, some ⟨1, "Y", ""⟩) = some (squareMsg "f" true) ∧
    naturalityRowMsg (remove_functor_morphism_mapping demoDB 0 0).1 0 1
      (get_nt_components demoDB 0) (0, "f", some ⟨0, "X", ""⟩, some ⟨1, "Y", ""⟩) =
      some (missingMappingMsg "f") ∧
    missingMappingMsg "f" ∈
      validate_naturality (remove_functor_morphism_mapping demoDB 0 0).1 0 := by
  have ha := C6_skip_and_missing_mapping.1 skipDB 0 ⟨0, "F", ""⟩ ⟨0, "C", "dom"⟩
    ⟨1, "D", "cod"⟩ ⟨1, "G", ""⟩ ⟨1, "D", "cod"⟩ 0 "f" ⟨0, "X", ""⟩ ⟨1, "Y", ""⟩
    (by decide) rfl (by decide) (Or.inl (by decide))
  have hb := C6_skip_and_missing_mapping.2.1 missDB 0 ⟨2, "H", ""⟩ ⟨0, "C", "dom"⟩
    ⟨1, "D", "cod"⟩ ⟨1, "G", ""⟩ ⟨1, "D", "cod"⟩ 0 "f" ⟨0, "X", ""⟩ ⟨1, "Y", ""⟩
    ⟨some 0, 3, "aX", some 2, some "FX", some 4, some "GX"⟩
    ⟨some 1, 4, "aY", some 3, some "FY", some 5, some "GY"⟩
    (by decide) rfl (by decide) (by decide) (by decide) (Or.inl (by decide))
  have hc := C6_skip_and_missing_mapping.2.2 demoDB 0 ⟨0, "F", ""⟩ ⟨0, "C", "dom"⟩
    ⟨1, "D", "cod"⟩ ⟨1, "G", ""⟩ ⟨1, "D", "cod"⟩ 0 "f" ⟨0, "X", ""⟩ ⟨1, "Y", ""⟩
    ⟨some 0, 3, "aX", some 2, some "FX", some 4, some "GX"⟩
    ⟨some 1, 4, "aY", some 3, some "FY", some 5, some "GY"⟩
    (1, "Ff", some "FX", some "FY") (2, "Gf", some "GX", some "GY")
    (by decide) rfl (by decide) (by decide) (by decide) (by decide) (by decide) (by decide)
  exact ⟨by decide, ha.1, ha.2, by decide, hb.1, hb.2, hc.1, hc.2.1, hc.2.2⟩

end Codices
